import Mathlib

/-!
Verification of the request-resilience core of the GENAI-FASTAPI-Toolkit
gateway: the retry/backoff executor (`app/core/gemini_client.py`,
`GeminiClient._retry_with_backoff`), the fixed-window rate limiter
(`app/core/rate_limiter.py`, `RateLimiter.check_rate_limit`) and the TTL cache
(`app/services/cache_service.py`, `CacheService`).  The Python code is embedded
shallowly: machine floats (`time.time()` values, delays) are modelled as exact
rationals, Python `int()` as truncation toward zero, Python dicts as
association lists, and `try`/`except` as explicit `Except` values.
-/

namespace GenaiSpec

/-- Python `int()` applied to a rational: truncation toward zero
(`int(2.7) = 2`, `int(-2.7) = -2`). -/
def pyInt (q : ℚ) : ℤ := if 0 ≤ q then ⌊q⌋ else -⌊-q⌋

/-- Python `%` on floats for a positive modulus: `a - b * floor (a / b)`
(the result has the sign of the divisor). -/
def pyMod (a b : ℚ) : ℚ := a - b * (⌊a / b⌋ : ℤ)

/-! ### Retry/backoff executor (`GeminiClient._retry_with_backoff`) -/

/-- Classified outcome of one invocation of the wrapped operation, mirroring
the exception classes caught in `_retry_with_backoff`: a normal return, a
`google_exceptions.ResourceExhausted` (quota), another
`google_exceptions.GoogleAPIError` carrying its message, or an unexpected
`Exception` carrying its message. -/
inductive AttemptOutcome (α : Type) where
  | success (v : α)
  | resourceExhausted
  | googleAPIError (msg : String)
  | unexpected (msg : String)
deriving DecidableEq

/-- What `_retry_with_backoff` produces: the wrapped operation's value, or one
of the two typed exceptions it raises — `RateLimitError` (which carries
`retry_after`) or `GeminiAPIError` (which carries `status_code`). -/
inductive RetryResult (α : Type) where
  | ok (v : α)
  | rateLimitError (msg : String) (retryAfter : ℤ)
  | geminiAPIError (msg : String) (statusCode : ℕ)
deriving DecidableEq

/-- Observable record of one `_retry_with_backoff` run: its result, how many
times the wrapped operation was invoked, and the list of back-off sleeps
performed (each element one `await asyncio.sleep(delay)`). -/
structure RetryExec (α : Type) where
  result : RetryResult α
  calls : ℕ
  sleeps : List ℚ
deriving DecidableEq

/-- The code after the `for` loop of `_retry_with_backoff`: if an unexpected
exception was recorded in `last_exception`, raise `GeminiAPIError` wrapping its
message with status 500, otherwise raise the generic `GeminiAPIError` with
status 500. -/
def retryFinish {α : Type} (lastExc : Option String) (maxRetries calls : ℕ)
    (sleeps : List ℚ) : RetryExec α :=
  match lastExc with
  | some msg =>
      ⟨.geminiAPIError (s!"Failed after {maxRetries} attempts: {msg}") 500, calls, sleeps⟩
  | none =>
      ⟨.geminiAPIError (s!"Failed after {maxRetries} attempts") 500, calls, sleeps⟩

/-- The `for attempt in range(max_retries)` loop of `_retry_with_backoff`.
`fuel` is the number of loop iterations still to run (`maxRetries - attempt`,
maintained by the caller), carried separately so the recursion is structural;
`attempt`, `delay`, `lastExc` are the Python loop variables, and `calls`,
`sleeps` accumulate the observable invocation count and back-off sleeps.
On the last attempt a quota failure raises `RateLimitError` with
`retry_after = int(delay)`, a `GoogleAPIError` raises `GeminiAPIError` with
status 503, and an unexpected failure records the exception and exits the loop
with `break` — which skips the sleep at the bottom of the loop body. -/
def retryGo {α : Type} (op : ℕ → AttemptOutcome α) (maxRetries : ℕ) (maxDelay : ℚ) :
    ℕ → ℕ → ℚ → Option String → ℕ → List ℚ → RetryExec α
  | 0, _, _, lastExc, calls, sleeps => retryFinish lastExc maxRetries calls sleeps
  | fuel + 1, attempt, delay, lastExc, calls, sleeps =>
    match op attempt with
    | .success v => ⟨.ok v, calls + 1, sleeps⟩
    | .resourceExhausted =>
      if attempt = maxRetries - 1 then
        ⟨.rateLimitError (s!"Rate limit exceeded after {maxRetries} attempts")
          (pyInt delay), calls + 1, sleeps⟩
      else
        retryGo op maxRetries maxDelay fuel (attempt + 1) (min (delay * 2) maxDelay)
          lastExc (calls + 1) (sleeps ++ [delay])
    | .googleAPIError msg =>
      if attempt = maxRetries - 1 then
        ⟨.geminiAPIError (s!"API error after {maxRetries} attempts: {msg}") 503,
          calls + 1, sleeps⟩
      else
        retryGo op maxRetries maxDelay fuel (attempt + 1) (min (delay * 2) maxDelay)
          lastExc (calls + 1) (sleeps ++ [delay])
    | .unexpected msg =>
      if attempt = maxRetries - 1 then
        retryFinish (some msg) maxRetries (calls + 1) sleeps
      else
        retryGo op maxRetries maxDelay fuel (attempt + 1) (min (delay * 2) maxDelay)
          (some msg) (calls + 1) (sleeps ++ [delay])

/-- `GeminiClient._retry_with_backoff`: run `op` for at most `maxRetries`
attempts with exponential back-off starting at `initialDelay`, doubled after
each failed attempt and capped at `maxDelay`.  `op n` is the classified
outcome of the `n`-th invocation of the wrapped operation. -/
def retryWithBackoff {α : Type} (op : ℕ → AttemptOutcome α) (maxRetries : ℕ)
    (initialDelay maxDelay : ℚ) : RetryExec α :=
  retryGo op maxRetries maxDelay maxRetries 0 initialDelay none 0 []

/-! ### Fixed-window rate limiter (`RateLimiter.check_rate_limit`) -/

/-- Outcome of `check_rate_limit`: either the request is admitted (the function
returns normally) or it is rejected by raising `RateLimitError` with
`retry_after = int(60 - current_time % 60)` seconds. -/
inductive CheckResult where
  | allow
  | reject (retryAfter : ℤ)
deriving DecidableEq

/-- Python `counts.get(b, 0)`: the recorded request count for bucket `b` in an
identifier's bucket map (association-list model of the Python dict; dict keys
are unique, so the first binding is the binding). -/
def bucketCount : List (ℤ × ℕ) → ℤ → ℕ
  | [], _ => 0
  | (k, v) :: rest, b => if k = b then v else bucketCount rest b

/-- Python dict assignment `counts[minute_window] = minute_count + 1`: replace
the binding of `b` if present (keys are unique), else append it. -/
def setBucket : List (ℤ × ℕ) → ℤ → ℕ → List (ℤ × ℕ)
  | [], b, v => [(b, v)]
  | (k, w) :: rest, b, v =>
    if k = b then (b, v) :: rest else (k, w) :: setBucket rest b v

/-- The dict comprehension in `check_rate_limit` that drops buckets older than
one hour: keep a binding `(k, v)` iff `current_time / 60 - k < 60`. -/
def purgeOld (now : ℚ) (counts : List (ℤ × ℕ)) : List (ℤ × ℕ) :=
  counts.filter (fun kv => decide (now / 60 - (kv.1 : ℚ) < 60))

/-- `RateLimiter.check_rate_limit` (`src/app/core/rate_limiter.py`), for one
identifier; `counts` is that identifier's bucket map
`self._request_counts[identifier]` (other identifiers' maps are untouched by
the function).  `perMinute` is the optional custom limit; Python's
`per_minute or self.settings.RATE_LIMIT_PER_MINUTE` treats `0` as falsy, so a
custom limit of `0` silently falls back to the configured default.  Returns
the outcome together with the identifier's bucket map afterwards. -/
def check_rate_limit (enabled : Bool) (perMinute : Option ℕ)
    (defaultPerMinute : ℕ) (now : ℚ) (counts : List (ℤ × ℕ)) :
    CheckResult × List (ℤ × ℕ) :=
  if !enabled then (.allow, counts)
  else
    let minuteLimit := match perMinute with
      | some n => if n = 0 then defaultPerMinute else n
      | none => defaultPerMinute
    let minuteWindow := pyInt (now / 60)
    let counts2 := purgeOld now counts
    let minuteCount := bucketCount counts2 minuteWindow
    if minuteLimit ≤ minuteCount then
      (.reject (pyInt (60 - pyMod now 60)), counts2)
    else
      (.allow, setBucket counts2 minuteWindow (minuteCount + 1))

/-- A sequence of `check_rate_limit` calls for the same identifier, one per
timestamp in the list, threading the bucket map through and collecting the
outcomes. -/
def checkSeq (enabled : Bool) (perMinute : Option ℕ) (defaultPerMinute : ℕ) :
    List ℚ → List (ℤ × ℕ) → List CheckResult × List (ℤ × ℕ)
  | [], counts => ([], counts)
  | t :: ts, counts =>
    let step := check_rate_limit enabled perMinute defaultPerMinute t counts
    let rest := checkSeq enabled perMinute defaultPerMinute ts step.2
    (step.1 :: rest.1, rest.2)

/-- The bucket map of an identifier after `j` admitted requests that all fall
in minute-bucket `b`, starting from no recorded requests. -/
def rlState (b : ℤ) (j : ℕ) : List (ℤ × ℕ) :=
  if j = 0 then [] else [(b, j)]

/-! ### TTL cache (`CacheService`) -/

/-- An in-memory cache entry as stored by `CacheService.set`:
`self._cache[key] = ...` holding the value and the absolute expiry
`expires_at = time.time() + ttl`. -/
structure CacheEntry (V : Type) where
  value : V
  expires_at : ℚ
deriving DecidableEq

/-- `self._cache.get(key)` on the association-list model of the in-memory dict
(keys unique, first binding is the binding). -/
def memGet {V : Type} : List (String × CacheEntry V) → String →
    Option (CacheEntry V)
  | [], _ => none
  | (k1, e1) :: rest, k => if k1 = k then some e1 else memGet rest k

/-- Python dict assignment `self._cache[key] = entry`: replace the binding of
`key` if present, else append it. -/
def memSet {V : Type} : List (String × CacheEntry V) → String → CacheEntry V →
    List (String × CacheEntry V)
  | [], k, e => [(k, e)]
  | (k1, e1) :: rest, k, e =>
    if k1 = k then (k, e) :: rest else (k1, e1) :: memSet rest k e

/-- Python `del self._cache[key]`: dict keys are unique, so dropping every
binding of `key` deletes exactly its one binding. -/
def memDel {V : Type} (cache : List (String × CacheEntry V)) (key : String) :
    List (String × CacheEntry V) :=
  cache.filter (fun kv => decide (¬(kv.1 = key)))

/-- `CacheService._cleanup_expired`: delete every entry whose `expires_at` is
strictly before the current time. -/
def cleanupExpired {V : Type} (now : ℚ)
    (cache : List (String × CacheEntry V)) : List (String × CacheEntry V) :=
  cache.filter (fun kv => decide (¬(kv.2.expires_at < now)))

/-- `CacheService.get` (`src/app/services/cache_service.py`).  `redisBacking`
models the value returned by `await self._redis_client.get(key)` when the
Redis backing is selected (`Except.error` when that call raises), and `decode`
models `json.loads` (`Except.error` when it raises); any exception in the
`try` body is swallowed — the function logs and falls through to
`return None`.  Python's `if value:` treats both `None` and the empty string
as falsy.  Returns the value (`none` is a miss) together with the in-memory
store afterwards (a lazily expired in-memory entry is deleted). -/
def serviceGet {V : Type} (enableCache useRedis : Bool)
    (redisBacking : Except String (Option String))
    (decode : String → Except String V) (now : ℚ) (key : String)
    (mem : List (String × CacheEntry V)) :
    Option V × List (String × CacheEntry V) :=
  if !enableCache then (none, mem)
  else if useRedis then
    match redisBacking with
    | .error _ => (none, mem)
    | .ok none => (none, mem)
    | .ok (some s) =>
      if s = "" then (none, mem)
      else
        match decode s with
        | .error _ => (none, mem)
        | .ok v => (some v, mem)
  else
    match memGet mem key with
    | some entry =>
      if now < entry.expires_at then (some entry.value, mem)
      else (none, memDel mem key)
    | none => (none, mem)

/-- `CacheService.set`.  Python's `ttl = ttl or self.settings.CACHE_TTL_SECONDS`
treats a `ttl` of `0` (like `None`) as falsy, substituting the configured
default TTL.  `redisSetex` models `await self._redis_client.setex(...)` when
the Redis backing is selected (`Except.error` when it raises; the exception is
swallowed, and the in-memory store is untouched on that path either way).
With the in-memory backing the entry is stored with `expires_at = now + ttl`
and, when the store then holds more than `CACHE_MAX_SIZE` entries, currently
expired entries are swept. -/
def serviceSet {V : Type} (enableCache useRedis : Bool)
    (redisSetex : Except String Unit) (defaultTTL : ℤ) (maxSize : ℕ)
    (now : ℚ) (key : String) (v : V) (ttl : Option ℤ)
    (mem : List (String × CacheEntry V)) : List (String × CacheEntry V) :=
  if !enableCache then mem
  else
    let t : ℤ := match ttl with
      | some n => if n = 0 then defaultTTL else n
      | none => defaultTTL
    if useRedis then
      match redisSetex with
      | .error _ => mem
      | .ok _ => mem
    else
      let mem2 := memSet mem key ⟨v, now + (t : ℚ)⟩
      if maxSize < mem2.length then cleanupExpired now mem2 else mem2

/-! ### Cache key derivation (`CacheService._generate_key`) -/

/-- A flat JSON-serializable parameter value, as the services pass to the key
generator (strings, integers, booleans, null). -/
inductive PVal where
  | pnull
  | pbool (b : Bool)
  | pint (n : ℤ)
  | pstr (s : String)
deriving DecidableEq

/-- `json.dumps` escaping of one string character (quote and backslash; other
characters rendered verbatim — the key-equality argument does not depend on
the escape table). -/
def jsonEscapeChar (c : Char) : String :=
  if c = '"' then "\\\"" else if c = '\\' then "\\\\" else String.singleton c

/-- A JSON string literal: quoted and escaped. -/
def jsonString (s : String) : String :=
  "\"" ++ String.join (s.data.map jsonEscapeChar) ++ "\""

/-- `json.dumps` rendering of one flat value. -/
def dumpPVal : PVal → String
  | .pnull => "null"
  | .pbool true => "true"
  | .pbool false => "false"
  | .pint n => toString n
  | .pstr s => jsonString s

/-- Ordering of keyword-argument bindings by parameter name, the order in
which `sort_keys=True` emits a dict's items. -/
def kwLE (p q : String × PVal) : Prop := p.1 ≤ q.1

/-- Strict ordering of bindings by parameter name (dict keys are unique, so
distinct bindings of a dict always compare strictly). -/
def kwLT (p q : String × PVal) : Prop := p.1 < q.1

instance : DecidableRel kwLE := fun p q =>
  inferInstanceAs (Decidable (p.1 ≤ q.1))

instance : IsTotal (String × PVal) kwLE := ⟨fun p q => le_total p.1 q.1⟩

instance : IsTrans (String × PVal) kwLE := ⟨fun _ _ _ h1 h2 => le_trans h1 h2⟩

instance : IsAntisymm (String × PVal) kwLT :=
  ⟨fun a _ h1 h2 => absurd (lt_trans h1 h2) (lt_irrefl a.1)⟩

/-- The keyword-argument dict with its items sorted by key, as `sort_keys=True`
serializes it. -/
def sortKwargs (kw : List (String × PVal)) : List (String × PVal) :=
  List.insertionSort kwLE kw

/-- The serialization `json.dumps(key_data, sort_keys=True)` of
`key_data = ...` holding the positional arguments under `"args"` and the
keyword arguments under `"kwargs"`: the two top-level keys are emitted in
sorted order, the positional arguments as a JSON array in positional order,
and the keyword arguments as a JSON object with its keys sorted. -/
def dumpsKeyData (args : List PVal) (kwargs : List (String × PVal)) : String :=
  "\x7b\"args\": [" ++ String.intercalate ", " (args.map dumpPVal)
    ++ "], \"kwargs\": \x7b"
    ++ String.intercalate ", "
      ((sortKwargs kwargs).map (fun p => jsonString p.1 ++ ": " ++ dumpPVal p.2))
    ++ "\x7d\x7d"

/-- `CacheService._generate_key`: the md5 hex digest of the canonical JSON
serialization of the arguments.  The digest is the external
`hashlib.md5(...).hexdigest()`, taken here as the parameter `md5hex`. -/
def generate_key (md5hex : String → String) (args : List PVal)
    (kwargs : List (String × PVal)) : String :=
  md5hex (dumpsKeyData args kwargs)

/-- C1: an operation that raises a quota failure on every invocation, run with
`max_retries = 3`, `initial_delay = 1.0`, `max_delay = 60.0`, is invoked
exactly 3 times and ends in `RateLimitError` whose `retry_after` is
`int(initial_delay * 2 ^ 2)` capped at `max_delay`. -/
theorem retry_quota_always_exhausts {α : Type} (op : ℕ → AttemptOutcome α)
    (h : ∀ n, op n = .resourceExhausted) :
    (retryWithBackoff op 3 1 60).calls = 3 ∧
    (retryWithBackoff op 3 1 60).result =
      .rateLimitError "Rate limit exceeded after 3 attempts"
        (pyInt (min ((1 : ℚ) * 2 ^ 2) 60)) := by
  have hop : op = fun _ => .resourceExhausted := funext h
  subst hop
  refine ⟨rfl, ?_⟩
  rw [show min ((1 : ℚ) * 2 ^ 2) 60 = min (min ((1 : ℚ) * 2) 60 * 2) 60 by norm_num]
  rfl

/-- Witness for C1 at the concrete always-quota operation. -/
theorem retry_quota_always_exhausts_witness :
    (retryWithBackoff (fun _ => AttemptOutcome.resourceExhausted (α := ℕ)) 3 1 60).calls = 3 ∧
    (retryWithBackoff (fun _ => AttemptOutcome.resourceExhausted (α := ℕ)) 3 1 60).result =
      .rateLimitError "Rate limit exceeded after 3 attempts"
        (pyInt (min ((1 : ℚ) * 2 ^ 2) 60)) :=
  retry_quota_always_exhausts (fun _ => .resourceExhausted) (fun _ => rfl)

/-- C8: an operation that fails with a quota failure on the first attempt and
succeeds on the second, run with `max_retries ≥ 2`, returns the success value
and is invoked exactly 2 times. -/
theorem retry_success_second_attempt {α : Type} (op : ℕ → AttemptOutcome α) (v : α)
    (maxRetries : ℕ) (h2 : 2 ≤ maxRetries)
    (h0 : op 0 = .resourceExhausted) (h1 : op 1 = .success v)
    (initialDelay maxDelay : ℚ) :
    (retryWithBackoff op maxRetries initialDelay maxDelay).result = .ok v ∧
    (retryWithBackoff op maxRetries initialDelay maxDelay).calls = 2 := by
  obtain ⟨k, rfl⟩ : ∃ k, maxRetries = k + 2 := ⟨maxRetries - 2, by omega⟩
  have hne : ¬(0 = k + 2 - 1) := by omega
  simp [retryWithBackoff, retryGo, h0, h1, hne]

/-- Witness for C8 at a concrete operation failing once then succeeding. -/
theorem retry_success_second_attempt_witness :
    (retryWithBackoff
      (fun n => if n = 0 then AttemptOutcome.resourceExhausted else .success (42 : ℕ))
      2 1 60).result = .ok 42 ∧
    (retryWithBackoff
      (fun n => if n = 0 then AttemptOutcome.resourceExhausted else .success (42 : ℕ))
      2 1 60).calls = 2 :=
  retry_success_second_attempt
    (fun n => if n = 0 then .resourceExhausted else .success (42 : ℕ)) 42 2
    (by decide) rfl rfl 1 60

/-- Helper: when no attempt ever succeeds, no run of the retry loop can end in
an `ok` result, from any loop state. -/
lemma retryGo_no_ok {α : Type} (op : ℕ → AttemptOutcome α)
    (h : ∀ n v, op n ≠ .success v) (maxRetries : ℕ) (maxDelay : ℚ) :
    ∀ (fuel attempt : ℕ) (delay : ℚ) (lastExc : Option String) (calls : ℕ)
      (sleeps : List ℚ) (v : α),
      (retryGo op maxRetries maxDelay fuel attempt delay lastExc calls sleeps).result
        ≠ .ok v := by
  intro fuel
  induction fuel with
  | zero =>
    intro attempt delay lastExc calls sleeps v
    cases lastExc <;> simp [retryGo, retryFinish]
  | succ n ih =>
    intro attempt delay lastExc calls sleeps v
    rcases hop : op attempt with w | _ | msg | msg
    · exact absurd hop (h attempt w)
    · by_cases hlast : attempt = maxRetries - 1
      · subst hlast
        simp [retryGo, hop, retryFinish]
      · simp [retryGo, hop, hlast, retryFinish, ih]
    · by_cases hlast : attempt = maxRetries - 1
      · subst hlast
        simp [retryGo, hop, retryFinish]
      · simp [retryGo, hop, hlast, retryFinish, ih]
    · by_cases hlast : attempt = maxRetries - 1
      · subst hlast
        simp [retryGo, hop, retryFinish]
      · simp [retryGo, hop, hlast, retryFinish, ih]

/-- Helper: when no attempt ever succeeds and at least one loop iteration
remains, the run ends in the typed error matching the classification of the
failure on the final attempt (`maxRetries - 1`): quota failures end in
`RateLimitError`, upstream API failures in `GeminiAPIError` with status 503,
and unexpected failures in the post-loop `GeminiAPIError` with status 500. -/
lemma retryGo_last_class {α : Type} (op : ℕ → AttemptOutcome α)
    (h : ∀ n v, op n ≠ .success v) (maxRetries : ℕ) (maxDelay : ℚ) :
    ∀ (fuel attempt : ℕ) (delay : ℚ) (lastExc : Option String) (calls : ℕ)
      (sleeps : List ℚ),
      fuel + attempt = maxRetries → 1 ≤ fuel →
      ((op (maxRetries - 1) = .resourceExhausted →
        ∃ s ra, (retryGo op maxRetries maxDelay fuel attempt delay lastExc calls
          sleeps).result = .rateLimitError s ra) ∧
       (∀ msg, op (maxRetries - 1) = .googleAPIError msg →
        ∃ s, (retryGo op maxRetries maxDelay fuel attempt delay lastExc calls
          sleeps).result = .geminiAPIError s 503) ∧
       (∀ msg, op (maxRetries - 1) = .unexpected msg →
        ∃ s, (retryGo op maxRetries maxDelay fuel attempt delay lastExc calls
          sleeps).result = .geminiAPIError s 500)) := by
  intro fuel
  induction fuel with
  | zero =>
    intro attempt delay lastExc calls sleeps hinv hone
    exact absurd hone (by omega)
  | succ n ih =>
    intro attempt delay lastExc calls sleeps hinv hone
    by_cases hn : n = 0
    · subst hn
      have hlast : attempt = maxRetries - 1 := by omega
      subst hlast
      refine ⟨?_, ?_, ?_⟩
      · intro hop
        simp only [retryGo, hop, if_pos rfl]
        exact ⟨_, _, rfl⟩
      · intro msg hop
        simp only [retryGo, hop, if_pos rfl]
        exact ⟨_, rfl⟩
      · intro msg hop
        simp only [retryGo, hop, if_pos rfl, retryFinish]
        exact ⟨_, rfl⟩
    · have hlast : ¬(attempt = maxRetries - 1) := by omega
      rcases hop : op attempt with w | _ | msg | msg
      · exact absurd hop (h attempt w)
      · have := ih (attempt + 1) (min (delay * 2) maxDelay) lastExc (calls + 1)
          (sleeps ++ [delay]) (by omega) (by omega)
        simpa [retryGo, hop, hlast] using this
      · have := ih (attempt + 1) (min (delay * 2) maxDelay) lastExc (calls + 1)
          (sleeps ++ [delay]) (by omega) (by omega)
        simpa [retryGo, hop, hlast] using this
      · have := ih (attempt + 1) (min (delay * 2) maxDelay) (some msg) (calls + 1)
          (sleeps ++ [delay]) (by omega) (by omega)
        simpa [retryGo, hop, hlast] using this

/-- C4: when no attempt of the wrapped operation succeeds, the retry executor
ends in exactly one typed error and never in a raw value: never `ok`; for
`max_retries = 0` the generic post-loop `GeminiAPIError` (status 500); and for
`max_retries ≥ 1` the error class is determined by the classification of the
final attempt — `RateLimitError` on quota exhaustion, `GeminiAPIError` with
status 503 on a generic upstream failure, and a `GeminiAPIError` with status
500 wrapping the recorded unexpected failure after the loop.  (In the
embedding every outcome of `retryWithBackoff` is a value of the typed
`RetryResult`, so no untyped exception can propagate.) -/
theorem retry_exhaustion_typed {α : Type} (op : ℕ → AttemptOutcome α)
    (h : ∀ n v, op n ≠ .success v) (maxRetries : ℕ) (initialDelay maxDelay : ℚ) :
    (∀ v, (retryWithBackoff op maxRetries initialDelay maxDelay).result ≠ .ok v) ∧
    (maxRetries = 0 → ∃ s,
      (retryWithBackoff op maxRetries initialDelay maxDelay).result
        = .geminiAPIError s 500) ∧
    (1 ≤ maxRetries →
      (op (maxRetries - 1) = .resourceExhausted →
        ∃ s ra, (retryWithBackoff op maxRetries initialDelay maxDelay).result
          = .rateLimitError s ra) ∧
      (∀ msg, op (maxRetries - 1) = .googleAPIError msg →
        ∃ s, (retryWithBackoff op maxRetries initialDelay maxDelay).result
          = .geminiAPIError s 503) ∧
      (∀ msg, op (maxRetries - 1) = .unexpected msg →
        ∃ s, (retryWithBackoff op maxRetries initialDelay maxDelay).result
          = .geminiAPIError s 500)) := by
  refine ⟨fun v => retryGo_no_ok op h maxRetries maxDelay maxRetries 0
    initialDelay none 0 [] v, ?_, ?_⟩
  · rintro rfl
    exact ⟨_, rfl⟩
  · intro hone
    exact retryGo_last_class op h maxRetries maxDelay maxRetries 0 initialDelay
      none 0 [] (by omega) hone

/-- Witness for C4 at a concrete always-quota operation with 3 retries. -/
theorem retry_exhaustion_typed_witness :
    (∀ v, (retryWithBackoff (fun _ => AttemptOutcome.resourceExhausted (α := ℕ))
      3 1 60).result ≠ .ok v) ∧
    ((3 : ℕ) = 0 → ∃ s,
      (retryWithBackoff (fun _ => AttemptOutcome.resourceExhausted (α := ℕ))
        3 1 60).result = .geminiAPIError s 500) ∧
    ((1 : ℕ) ≤ 3 →
      ((fun _ => AttemptOutcome.resourceExhausted (α := ℕ)) (3 - 1)
          = .resourceExhausted →
        ∃ s ra, (retryWithBackoff (fun _ => AttemptOutcome.resourceExhausted (α := ℕ))
          3 1 60).result = .rateLimitError s ra) ∧
      (∀ msg, (fun _ => AttemptOutcome.resourceExhausted (α := ℕ)) (3 - 1)
          = .googleAPIError msg →
        ∃ s, (retryWithBackoff (fun _ => AttemptOutcome.resourceExhausted (α := ℕ))
          3 1 60).result = .geminiAPIError s 503) ∧
      (∀ msg, (fun _ => AttemptOutcome.resourceExhausted (α := ℕ)) (3 - 1)
          = .unexpected msg →
        ∃ s, (retryWithBackoff (fun _ => AttemptOutcome.resourceExhausted (α := ℕ))
          3 1 60).result = .geminiAPIError s 500)) :=
  retry_exhaustion_typed (fun _ => .resourceExhausted)
    (fun _ _ hc => AttemptOutcome.noConfusion hc) 3 1 60

/-- C6 counterexample: an operation whose single attempt fails with an
unexpected error.  The loop exits through the `break` path and the post-loop
`GeminiAPIError` (the generic `ServiceError`) is raised, but the recorded
back-off sleeps are empty: `break` exits the loop body before the
`await asyncio.sleep(delay)` line, so no sleep occurs — contradicting the
claim that the sleep step still occurs before the post-loop error. -/
theorem retry_break_sleep_counterexample :
    (retryWithBackoff (fun _ => AttemptOutcome.unexpected (α := ℕ) "boom")
      1 1 60).sleeps = [] ∧
    (retryWithBackoff (fun _ => AttemptOutcome.unexpected (α := ℕ) "boom")
      1 1 60).result = .geminiAPIError "Failed after 1 attempts: boom" 500 ∧
    (retryWithBackoff (fun _ => AttemptOutcome.unexpected (α := ℕ) "boom")
      1 1 60).calls = 1 :=
  ⟨rfl, rfl, rfl⟩

/-- Helper: when every attempt fails with an unexpected error, the loop
performs one back-off sleep per iteration except the final one (which exits
via `break`, skipping the sleep), and ends in the post-loop `GeminiAPIError`
with status 500. -/
lemma retryGo_all_unexpected {α : Type} (op : ℕ → AttemptOutcome α)
    (h : ∀ n, ∃ msg, op n = .unexpected msg) (maxRetries : ℕ) (maxDelay : ℚ) :
    ∀ (fuel attempt : ℕ) (delay : ℚ) (lastExc : Option String) (calls : ℕ)
      (sleeps : List ℚ),
      fuel + attempt = maxRetries → 1 ≤ fuel →
      (retryGo op maxRetries maxDelay fuel attempt delay lastExc calls
        sleeps).sleeps.length = sleeps.length + (fuel - 1) ∧
      ∃ s, (retryGo op maxRetries maxDelay fuel attempt delay lastExc calls
        sleeps).result = .geminiAPIError s 500 := by
  intro fuel
  induction fuel with
  | zero =>
    intro attempt delay lastExc calls sleeps hinv hone
    exact absurd hone (by omega)
  | succ n ih =>
    intro attempt delay lastExc calls sleeps hinv hone
    obtain ⟨msg, hop⟩ := h attempt
    by_cases hn : n = 0
    · subst hn
      have hlast : attempt = maxRetries - 1 := by omega
      subst hlast
      simp only [retryGo, hop, if_pos rfl, retryFinish]
      exact ⟨rfl, _, rfl⟩
    · have hlast : ¬(attempt = maxRetries - 1) := by omega
      have := ih (attempt + 1) (min (delay * 2) maxDelay) (some msg) (calls + 1)
        (sleeps ++ [delay]) (by omega) (by omega)
      simp only [retryGo, hop, if_neg hlast]
      refine ⟨?_, this.2⟩
      rw [this.1]
      simp
      omega

/-- C6 (amended): when the final attempt fails with an unexpected error and the
loop exits via the `break` path, NO back-off sleep occurs for that final
attempt — only the earlier attempts sleep (`maxRetries - 1` sleeps when every
attempt fails unexpectedly) — and then the post-loop `GeminiAPIError` with
status 500 is raised. -/
theorem retry_break_skips_sleep {α : Type} (op : ℕ → AttemptOutcome α)
    (h : ∀ n, ∃ msg, op n = .unexpected msg) (maxRetries : ℕ)
    (hone : 1 ≤ maxRetries) (initialDelay maxDelay : ℚ) :
    (retryWithBackoff op maxRetries initialDelay maxDelay).sleeps.length
      = maxRetries - 1 ∧
    ∃ s, (retryWithBackoff op maxRetries initialDelay maxDelay).result
      = .geminiAPIError s 500 := by
  have := retryGo_all_unexpected op h maxRetries maxDelay maxRetries 0
    initialDelay none 0 [] (by omega) hone
  simpa [retryWithBackoff] using this

/-- Witness for the amended C6 at a concrete always-unexpected operation. -/
theorem retry_break_skips_sleep_witness :
    (retryWithBackoff (fun _ => AttemptOutcome.unexpected (α := ℕ) "oops")
      2 1 60).sleeps.length = 2 - 1 ∧
    ∃ s, (retryWithBackoff (fun _ => AttemptOutcome.unexpected (α := ℕ) "oops")
      2 1 60).result = .geminiAPIError s 500 :=
  retry_break_skips_sleep (fun _ => .unexpected "oops")
    (fun _ => ⟨"oops", rfl⟩) 2 (by decide) 1 60

/-- C7: when rate limiting is disabled by configuration, `check_rate_limit`
returns immediately: every request is admitted, whatever the identifier's
recorded state and the call's parameters, and the per-identifier counter state
is returned completely unchanged. -/
theorem rate_limit_disabled_frame (perMinute : Option ℕ) (defaultPerMinute : ℕ)
    (now : ℚ) (counts : List (ℤ × ℕ)) :
    check_rate_limit false perMinute defaultPerMinute now counts
      = (.allow, counts) := by
  simp [check_rate_limit]

/-- Helper: the current minute-bucket is never older than the one-hour purge
horizon, for any (possibly negative) timestamp. -/
lemma div60_sub_pyInt_lt (t : ℚ) : t / 60 - (pyInt (t / 60) : ℚ) < 60 := by
  unfold pyInt
  by_cases h : 0 ≤ t / 60
  · rw [if_pos h]
    have h1 : t / 60 - 1 < ((⌊t / 60⌋ : ℤ) : ℚ) := Int.sub_one_lt_floor _
    linarith
  · rw [if_neg h]
    have h1 : ((⌊-(t / 60)⌋ : ℤ) : ℚ) ≤ -(t / 60) := Int.floor_le _
    push_cast
    linarith

/-- Helper: filtering an association list with a predicate that holds on every
binding of key `b` does not change the count looked up at `b`. -/
lemma bucketCount_filter (p : ℤ × ℕ → Bool) (b : ℤ)
    (hb : ∀ v, p (b, v) = true) :
    ∀ l : List (ℤ × ℕ), bucketCount (l.filter p) b = bucketCount l b := by
  intro l
  induction l with
  | nil => rfl
  | cons kv rest ih =>
    obtain ⟨k, v⟩ := kv
    by_cases hk : k = b
    · subst hk
      rw [List.filter_cons, if_pos (by simp [hb v])]
      simp [bucketCount]
    · rcases hp : p (k, v) with _ | _
      · rw [List.filter_cons, if_neg (by simp [hp])]
        simp [bucketCount, hk, ih]
      · rw [List.filter_cons, if_pos (by simp [hp])]
        simp [bucketCount, hk, ih]

/-- C10: a rejecting `check_rate_limit` call does not consume quota: the
post-call state is exactly the purged pre-call state (only buckets older than
60 minutes are dropped), and the count of the current minute-bucket is
unchanged from before the call. -/
theorem rate_limit_reject_frame (perMinute : Option ℕ) (defaultPerMinute : ℕ)
    (now : ℚ) (counts : List (ℤ × ℕ)) (r : ℤ) (counts2 : List (ℤ × ℕ))
    (h : check_rate_limit true perMinute defaultPerMinute now counts
      = (.reject r, counts2)) :
    counts2 = purgeOld now counts ∧
    bucketCount counts2 (pyInt (now / 60)) = bucketCount counts (pyInt (now / 60)) := by
  have hc2 : counts2 = purgeOld now counts := by
    unfold check_rate_limit at h
    simp only [Bool.not_true, Bool.false_eq_true, if_false] at h
    split at h
    · exact (Prod.mk.injEq _ _ _ _ ▸ h).2.symm
    · exact absurd (Prod.mk.injEq _ _ _ _ ▸ h).1 (by simp)
  refine ⟨hc2, ?_⟩
  rw [hc2]
  exact bucketCount_filter _ _
    (fun v => decide_eq_true (by simpa using div60_sub_pyInt_lt now)) counts

/-- Witness for C10 at a concrete rejecting call: limit 1, one request already
recorded in the current bucket. -/
theorem rate_limit_reject_frame_witness :
    check_rate_limit true (some 1) 60 30 [((0 : ℤ), 5)] = (.reject 30, [((0 : ℤ), 5)]) ∧
    ([((0 : ℤ), 5)] = purgeOld 30 [((0 : ℤ), 5)] ∧
      bucketCount [((0 : ℤ), 5)] (pyInt (30 / 60))
        = bucketCount [((0 : ℤ), 5)] (pyInt (30 / 60))) :=
  have hc : check_rate_limit true (some 1) 60 30 [((0 : ℤ), 5)]
      = (.reject 30, [((0 : ℤ), 5)]) := by
    norm_num [check_rate_limit, purgeOld, bucketCount, pyInt, pyMod,
      List.filter_cons]
  ⟨hc, rate_limit_reject_frame (some 1) 60 30 [((0 : ℤ), 5)] 30 [((0 : ℤ), 5)] hc⟩

/-- Helper: Python `t % 60` is never negative. -/
lemma pyMod_nonneg (a : ℚ) : 0 ≤ pyMod a 60 := by
  unfold pyMod
  have h1 : ((⌊a / 60⌋ : ℤ) : ℚ) ≤ a / 60 := Int.floor_le _
  have h2 : (60 : ℚ) * ((⌊a / 60⌋ : ℤ) : ℚ) ≤ 60 * (a / 60) := by linarith
  have h3 : (60 : ℚ) * (a / 60) = a := by ring
  linarith

/-- Helper: Python `t % 60` is less than 60. -/
lemma pyMod_lt (a : ℚ) : pyMod a 60 < 60 := by
  unfold pyMod
  have h1 : a / 60 - 1 < ((⌊a / 60⌋ : ℤ) : ℚ) := Int.sub_one_lt_floor _
  have h2 : (60 : ℚ) * (a / 60 - 1) < 60 * ((⌊a / 60⌋ : ℤ) : ℚ) := by linarith
  have h3 : (60 : ℚ) * (a / 60) = a := by ring
  linarith

/-- Helper: `pyInt` agrees with the floor on non-negative arguments. -/
lemma pyInt_of_nonneg {q : ℚ} (h : 0 ≤ q) : pyInt q = ⌊q⌋ := by
  unfold pyInt
  rw [if_pos h]

/-- Helper: one admitted `check_rate_limit` call, from the state reached after
`j < limit` admitted requests in the current minute-bucket. -/
lemma check_step_allow (limit d : ℕ) (b : ℤ) (t : ℚ)
    (hb : pyInt (t / 60) = b) (j : ℕ) (hj : j < limit) :
    check_rate_limit true (some limit) d t (rlState b j)
      = (.allow, rlState b (j + 1)) := by
  have hage : t / 60 - (b : ℚ) < 60 := by
    rw [← hb]; exact div60_sub_pyInt_lt t
  have hlim : ¬(limit = 0) := by omega
  have hnle : ¬(limit ≤ j) := by omega
  by_cases hj0 : j = 0
  · subst hj0
    simp [check_rate_limit, rlState, purgeOld, bucketCount, setBucket, hb,
      hlim, hnle, hage]
  · simp [check_rate_limit, rlState, purgeOld, bucketCount, setBucket, hb,
      hlim, hnle, hage, hj0]

/-- Helper: the rejecting `check_rate_limit` call from the state reached after
`limit ≥ 1` admitted requests in the current minute-bucket. -/
lemma check_step_reject (limit d : ℕ) (hl : 1 ≤ limit) (b : ℤ) (t : ℚ)
    (hb : pyInt (t / 60) = b) :
    check_rate_limit true (some limit) d t (rlState b limit)
      = (.reject (pyInt (60 - pyMod t 60)), rlState b limit) := by
  have hage : t / 60 - (b : ℚ) < 60 := by
    rw [← hb]; exact div60_sub_pyInt_lt t
  have hlim : ¬(limit = 0) := by omega
  simp [check_rate_limit, rlState, purgeOld, bucketCount, hb, hlim, hage]

/-- Helper: a run of admitted calls all landing in minute-bucket `b` increments
that bucket's count once per call and returns allow each time. -/
lemma checkSeq_allow_phase (limit d : ℕ) (b : ℤ) :
    ∀ (ts : List ℚ) (j : ℕ), (∀ t ∈ ts, pyInt (t / 60) = b) →
      j + ts.length ≤ limit →
      checkSeq true (some limit) d ts (rlState b j)
        = (List.replicate ts.length .allow, rlState b (j + ts.length)) := by
  intro ts
  induction ts with
  | nil =>
    intro j _ _
    simp [checkSeq]
  | cons t ts ih =>
    intro j hbs hlen
    have hstep := check_step_allow limit d b t (hbs t (by simp)) j
      (by simp at hlen; omega)
    have hrest := ih (j + 1) (fun u hu => hbs u (by simp [hu]))
      (by simp at hlen ⊢; omega)
    have harg : j + 1 + ts.length = j + (ts.length + 1) := by omega
    simp only [checkSeq, hstep, hrest, List.length_cons, List.replicate_succ,
      harg]

/-- Helper: running `checkSeq` over a concatenation splits into two runs. -/
lemma checkSeq_append (enabled : Bool) (pm : Option ℕ) (d : ℕ) :
    ∀ (l1 l2 : List ℚ) (s : List (ℤ × ℕ)),
      checkSeq enabled pm d (l1 ++ l2) s
        = ((checkSeq enabled pm d l1 s).1
            ++ (checkSeq enabled pm d l2 (checkSeq enabled pm d l1 s).2).1,
           (checkSeq enabled pm d l2 (checkSeq enabled pm d l1 s).2).2) := by
  intro l1
  induction l1 with
  | nil => intro l2 s; simp [checkSeq]
  | cons t ts ih => intro l2 s; simp [checkSeq, ih]

/-- C2 (amended): for every per-minute limit `≥ 1`, calling `check_rate_limit`
`limit + 1` times from a fresh state with all calls in the same minute-bucket
admits the first `limit` calls and rejects the last one with
`retry_after = int(60 - now % 60)`, which satisfies `0 ≤ retry_after ≤ 60` and
is positive whenever the rejected call lands at least one second before the
end of its minute (`now % 60 ≤ 59`).  (The original claim's strict positivity
fails in the final second of a minute, and a custom limit of `0` is treated as
absent by Python's `or`; see the counterexample.) -/
theorem rate_limit_exhaustion_amended (limit d : ℕ) (hl : 1 ≤ limit) (b : ℤ)
    (ts : List ℚ) (tl : ℚ) (hlen : ts.length = limit)
    (hbs : ∀ t ∈ ts, pyInt (t / 60) = b) (hbl : pyInt (tl / 60) = b) :
    (checkSeq true (some limit) d (ts ++ [tl]) []).1
      = List.replicate limit .allow
        ++ [.reject (pyInt (60 - pyMod tl 60))] ∧
    0 ≤ pyInt (60 - pyMod tl 60) ∧
    pyInt (60 - pyMod tl 60) ≤ 60 ∧
    (pyMod tl 60 ≤ 59 → 1 ≤ pyInt (60 - pyMod tl 60)) := by
  have hpos : (0 : ℚ) ≤ 60 - pyMod tl 60 := by
    have := pyMod_lt tl
    linarith
  have hfloor : pyInt (60 - pyMod tl 60) = ⌊(60 : ℚ) - pyMod tl 60⌋ :=
    pyInt_of_nonneg hpos
  refine ⟨?_, ?_, ?_, ?_⟩
  · have h0 : rlState b 0 = [] := rfl
    rw [← h0, checkSeq_append,
      checkSeq_allow_phase limit d b ts 0 hbs (by omega)]
    have hrej := check_step_reject limit d hl b tl hbl
    simp [checkSeq, hrej, hlen]
  · rw [hfloor]
    exact Int.floor_nonneg.mpr hpos
  · rw [hfloor]
    have h60 : ⌊(60 : ℚ) - pyMod tl 60⌋ ≤ ⌊(60 : ℚ)⌋ :=
      Int.floor_le_floor (by have := pyMod_nonneg tl; linarith)
    simpa using h60
  · intro h59
    rw [hfloor]
    exact Int.le_floor.mpr (by push_cast; linarith)

/-- C2 counterexample: with limit 1 the second call in the same minute-bucket
is rejected, but at `now = 59.5` seconds the reported
`retry_after = int(60 - 59.5) = 0` is not positive, refuting the claimed
strictly positive `retry_after`. -/
theorem rate_limit_retry_after_zero_counterexample :
    (checkSeq true (some 1) 60 [30, 119 / 2] []).1
      = [.allow, .reject 0] := by
  have h1 : check_rate_limit true (some 1) 60 30 [] = (.allow, [((0 : ℤ), 1)]) := by
    norm_num [check_rate_limit, purgeOld, bucketCount, setBucket, pyInt]
  have h2 : check_rate_limit true (some 1) 60 (119 / 2) [((0 : ℤ), 1)]
      = (.reject 0, [((0 : ℤ), 1)]) := by
    norm_num [check_rate_limit, purgeOld, bucketCount, setBucket, pyInt, pyMod,
      List.filter_cons]
  simp [checkSeq, h1, h2]

/-- Witness for the amended C2 at limit 1, with the first call at 30 s and the
rejected call at 59.5 s of the same minute. -/
theorem rate_limit_exhaustion_amended_witness :
    (checkSeq true (some 1) 60 ([30] ++ [119 / 2]) []).1
      = List.replicate 1 .allow
        ++ [.reject (pyInt (60 - pyMod (119 / 2) 60))] ∧
    0 ≤ pyInt (60 - pyMod (119 / 2) 60) ∧
    pyInt (60 - pyMod (119 / 2) 60) ≤ 60 ∧
    (pyMod (119 / 2) 60 ≤ 59 → 1 ≤ pyInt (60 - pyMod (119 / 2) 60)) :=
  rate_limit_exhaustion_amended 1 60 (by norm_num) 0 [30] (119 / 2) rfl
    (by intro t ht; simp at ht; subst ht; norm_num [pyInt])
    (by norm_num [pyInt])

/-- Helper: `memGet` finds the entry just stored by `memSet`. -/
lemma memGet_memSet {V : Type} (k : String) (e : CacheEntry V) :
    ∀ mem : List (String × CacheEntry V), memGet (memSet mem k e) k = some e := by
  intro mem
  induction mem with
  | nil => simp [memGet, memSet]
  | cons kv rest ih =>
    obtain ⟨k1, e1⟩ := kv
    by_cases hk : k1 = k
    · subst hk
      simp [memGet, memSet]
    · simp [memGet, memSet, hk, ih]

/-- Helper: filtering with a predicate that holds of the binding of `k`
preserves the lookup at `k`. -/
lemma memGet_filter {V : Type} (p : String × CacheEntry V → Bool) (k : String)
    (e : CacheEntry V) (he : p (k, e) = true) :
    ∀ mem : List (String × CacheEntry V),
      memGet mem k = some e → memGet (mem.filter p) k = some e := by
  intro mem
  induction mem with
  | nil => intro h; cases h
  | cons kv rest ih =>
    obtain ⟨k1, e1⟩ := kv
    intro h
    by_cases hk : k1 = k
    · subst hk
      have he1 : e1 = e := by simpa [memGet] using h
      subst he1
      rw [List.filter_cons, if_pos (by simp [he])]
      simp [memGet]
    · have hrest : memGet rest k = some e := by simpa [memGet, hk] using h
      rcases hp : p (k1, e1) with _ | _
      · rw [List.filter_cons, if_neg (by simp [hp])]
        exact ih hrest
      · rw [List.filter_cons, if_pos (by simp [hp])]
        simpa [memGet, hk] using ih hrest

/-- Helper: after deleting `k`, looking up `k` misses. -/
lemma memGet_memDel {V : Type} (k : String) :
    ∀ mem : List (String × CacheEntry V), memGet (memDel mem k) k = none := by
  intro mem
  induction mem with
  | nil => rfl
  | cons kv rest ih =>
    obtain ⟨k1, e1⟩ := kv
    by_cases hk : k1 = k
    · subst hk
      simpa [memDel, List.filter_cons] using ih
    · simpa [memDel, List.filter_cons, hk, memGet] using ih

/-- Helper: with the cache enabled and the in-memory backing, `set` stores the
entry with expiry `now + ttl` (for non-zero `ttl` not subject to the falsy-or
default), and the entry survives the capacity sweep because it is not yet
expired. -/
lemma serviceSet_stores {V : Type} (k : String) (v : V) (ttl : ℤ)
    (httl : 0 < ttl) (defaultTTL : ℤ) (maxSize : ℕ) (now : ℚ)
    (mem : List (String × CacheEntry V)) :
    memGet (serviceSet true false (Except.ok ()) defaultTTL maxSize now k v
      (some ttl) mem) k = some ⟨v, now + (ttl : ℚ)⟩ := by
  have hne : ¬(ttl = 0) := by omega
  have hq : (0 : ℚ) < (ttl : ℚ) := by exact_mod_cast httl
  have hstored := memGet_memSet k (⟨v, now + (ttl : ℚ)⟩ : CacheEntry V) mem
  unfold serviceSet
  simp only [Bool.not_true, Bool.false_eq_true, if_false, hne, ite_false,
    Bool.false_eq_true]
  by_cases hsz : maxSize < (memSet mem k ⟨v, now + (ttl : ℚ)⟩).length
  · rw [if_pos hsz]
    exact memGet_filter _ k _ (decide_eq_true (by simp; linarith)) _ hstored
  · rw [if_neg hsz]
    exact hstored

/-- C3 (amended): with the cache enabled and the in-memory backing, for every
key, value and positive `ttl`: `set(k, v, ttl)` immediately followed by
`get(k)` returns `v`; once the current time reaches the entry's expiry
`now + ttl`, `get(k)` returns a miss and removes the entry; and,
unconditionally, a stored entry is never served past its `expires_at`.
(For `ttl = 0` Python's falsy `or` substitutes the default TTL, so the claim
as stated over all `ttl` fails; see the counterexample.) -/
theorem cache_set_get_amended {V : Type} (k : String) (v : V) (ttl : ℤ)
    (httl : 0 < ttl) (defaultTTL : ℤ) (maxSize : ℕ) (now : ℚ)
    (mem : List (String × CacheEntry V))
    (r : Except String (Option String)) (dec : String → Except String V) :
    (serviceGet true false r dec now k
      (serviceSet true false (Except.ok ()) defaultTTL maxSize now k v
        (some ttl) mem)).1 = some v ∧
    (∀ now2 : ℚ, now + (ttl : ℚ) ≤ now2 →
      (serviceGet true false r dec now2 k
        (serviceSet true false (Except.ok ()) defaultTTL maxSize now k v
          (some ttl) mem)).1 = none ∧
      memGet (serviceGet true false r dec now2 k
        (serviceSet true false (Except.ok ()) defaultTTL maxSize now k v
          (some ttl) mem)).2 k = none) ∧
    (∀ (now3 : ℚ) (key3 : String) (st : List (String × CacheEntry V)) (w : V),
      (serviceGet true false r dec now3 key3 st).1 = some w →
      ∃ e, memGet st key3 = some e ∧ e.value = w ∧ now3 < e.expires_at) := by
  have hq : (0 : ℚ) < (ttl : ℚ) := by exact_mod_cast httl
  have hstore := serviceSet_stores k v ttl httl defaultTTL maxSize now mem
  refine ⟨?_, ?_, ?_⟩
  · simp [serviceGet, hstore, hq]
  · intro now2 hle
    have hexp : ¬(now2 < now + (ttl : ℚ)) := by linarith
    constructor
    · simp [serviceGet, hstore, hexp]
    · simp [serviceGet, hstore, hexp, memGet_memDel]
  · intro now3 key3 st w hw
    unfold serviceGet at hw
    simp only [Bool.not_true, Bool.false_eq_true, if_false, ite_false] at hw
    rcases hm : memGet st key3 with _ | e
    · rw [hm] at hw
      simp at hw
    · rw [hm] at hw
      by_cases ht : now3 < e.expires_at
      · simp [ht] at hw
        exact ⟨e, rfl, hw, ht⟩
      · simp [ht] at hw

/-- Witness for the amended C3 at a concrete key, value and `ttl = 5`. -/
theorem cache_set_get_amended_witness :
    (serviceGet true false (Except.ok none) (fun _ => Except.error "nojson") 0 "a"
      (serviceSet true false (Except.ok ()) 3600 1000 0 "a" (7 : ℤ)
        (some 5) [])).1 = some 7 ∧
    (∀ now2 : ℚ, 0 + ((5 : ℤ) : ℚ) ≤ now2 →
      (serviceGet true false (Except.ok none) (fun _ => Except.error "nojson") now2 "a"
        (serviceSet true false (Except.ok ()) 3600 1000 0 "a" (7 : ℤ)
          (some 5) [])).1 = none ∧
      memGet (serviceGet true false (Except.ok none) (fun _ => Except.error "nojson") now2 "a"
        (serviceSet true false (Except.ok ()) 3600 1000 0 "a" (7 : ℤ)
          (some 5) [])).2 "a" = none) ∧
    (∀ (now3 : ℚ) (key3 : String) (st : List (String × CacheEntry ℤ)) (w : ℤ),
      (serviceGet true false (Except.ok none) (fun _ => Except.error "nojson")
        now3 key3 st).1 = some w →
      ∃ e, memGet st key3 = some e ∧ e.value = w ∧ now3 < e.expires_at) :=
  cache_set_get_amended "a" (7 : ℤ) 5 (by decide) 3600 1000 0 []
    (Except.ok none) (fun _ => Except.error "nojson")

/-- C3 counterexample: `set(k, 42, ttl = 0)` at time 0 stores the entry with
the DEFAULT TTL (3600 s) because Python's `ttl or settings.CACHE_TTL_SECONDS`
treats `0` as falsy; at time 1 — past the claim's expiry `now + ttl = 0` —
`get` still returns the value instead of the claimed miss. -/
theorem cache_ttl_zero_counterexample :
    (serviceGet true false (Except.ok none) (fun _ => Except.error "nojson") 1 "k"
      (serviceSet true false (Except.ok ()) 3600 1000 0 "k" (42 : ℤ)
        (some 0) [])).1 = some 42 := by
  norm_num [serviceGet, serviceSet, memGet, memSet, cleanupExpired]

/-- C9: backing-store failures are absorbed.  When the Redis backing raises
(`Except.error`), `get` returns a miss and leaves the store untouched, and
`set` completes as a no-op with the state unchanged.  Both embedded functions
are total — every backing outcome maps to a plain return value — so no
exception from the cache ever propagates to the caller. -/
theorem cache_error_absorbed {V : Type} (e1 e2 : String)
    (dec : String → Except String V) (defaultTTL : ℤ) (maxSize : ℕ) (now : ℚ)
    (k : String) (v : V) (ttl : Option ℤ)
    (mem : List (String × CacheEntry V)) :
    serviceGet true true (Except.error e1) dec now k mem = (none, mem) ∧
    serviceSet true true (Except.error e2) defaultTTL maxSize now k v ttl mem
      = mem := by
  constructor
  · simp [serviceGet]
  · simp [serviceSet]

/-- Helper: a list sorted by non-strict key order whose keys are distinct is
sorted by strict key order. -/
lemma sorted_kwLT_of_kwLE :
    ∀ {l : List (String × PVal)}, List.Sorted kwLE l →
      (l.map Prod.fst).Nodup → List.Sorted kwLT l := by
  intro l
  induction l with
  | nil => intro _ _; exact List.sorted_nil
  | cons p l ih =>
    intro hs hn
    rw [List.sorted_cons] at hs ⊢
    rw [List.map_cons, List.nodup_cons] at hn
    obtain ⟨hple, hsl⟩ := hs
    obtain ⟨hpnotin, hnl⟩ := hn
    refine ⟨?_, ih hsl hnl⟩
    intro b hb
    refine lt_of_le_of_ne (hple b hb) ?_
    intro heq
    exact hpnotin (heq ▸ List.mem_map_of_mem Prod.fst hb)

/-- Helper: two keyword-argument lists that are permutations of each other and
have no duplicate parameter names sort to the same canonical list. -/
lemma sortKwargs_eq_of_perm (kw1 kw2 : List (String × PVal))
    (hperm : kw1.Perm kw2) (hnodup : (kw1.map Prod.fst).Nodup) :
    sortKwargs kw1 = sortKwargs kw2 := by
  have hp1 : (sortKwargs kw1).Perm kw1 := List.perm_insertionSort kwLE kw1
  have hp2 : (sortKwargs kw2).Perm kw2 := List.perm_insertionSort kwLE kw2
  have hs1 : List.Sorted kwLE (sortKwargs kw1) :=
    List.sorted_insertionSort kwLE kw1
  have hs2 : List.Sorted kwLE (sortKwargs kw2) :=
    List.sorted_insertionSort kwLE kw2
  have hnodup2 : (kw2.map Prod.fst).Nodup :=
    ((hperm.map Prod.fst).nodup_iff).mp hnodup
  have hn1 : ((sortKwargs kw1).map Prod.fst).Nodup :=
    ((hp1.map Prod.fst).nodup_iff).mpr hnodup
  have hn2 : ((sortKwargs kw2).map Prod.fst).Nodup :=
    ((hp2.map Prod.fst).nodup_iff).mpr hnodup2
  exact List.eq_of_perm_of_sorted (hp1.trans (hperm.trans hp2.symm))
    (sorted_kwLT_of_kwLE hs1 hn1) (sorted_kwLT_of_kwLE hs2 hn2)

/-- C5: cache key derivation is order-independent and deterministic: for every
digest function, every positional-argument list and every keyword-argument
mapping (a dict, so no duplicate parameter names), presenting the keyword
arguments in any two insertion orders yields the same derived key, because
`sort_keys=True` canonicalizes the serialization before hashing. -/
theorem generate_key_order_independent (md5hex : String → String)
    (args : List PVal) (kw1 kw2 : List (String × PVal))
    (hperm : kw1.Perm kw2) (hnodup : (kw1.map Prod.fst).Nodup) :
    generate_key md5hex args kw1 = generate_key md5hex args kw2 := by
  unfold generate_key dumpsKeyData
  rw [sortKwargs_eq_of_perm kw1 kw2 hperm hnodup]

/-- Witness for C5 at the spec's example: parameters a=1, b=2 given in both
insertion orders. -/
theorem generate_key_order_independent_witness :
    (([("a", PVal.pint 1), ("b", PVal.pint 2)] : List (String × PVal)).Perm
      [("b", PVal.pint 2), ("a", PVal.pint 1)]) ∧
    (([("a", PVal.pint 1), ("b", PVal.pint 2)] : List (String × PVal)).map
      Prod.fst).Nodup ∧
    generate_key id [PVal.pstr "op"] [("a", PVal.pint 1), ("b", PVal.pint 2)]
      = generate_key id [PVal.pstr "op"]
          [("b", PVal.pint 2), ("a", PVal.pint 1)] :=
  ⟨List.Perm.swap ("b", PVal.pint 2) ("a", PVal.pint 1) [],
   by decide,
   generate_key_order_independent id [PVal.pstr "op"]
     [("a", PVal.pint 1), ("b", PVal.pint 2)]
     [("b", PVal.pint 2), ("a", PVal.pint 1)]
     (List.Perm.swap ("b", PVal.pint 2) ("a", PVal.pint 1) []) (by decide)⟩

end GenaiSpec
